import Mathlib

/-!
Shallow embedding of the `ollama-tui` application core
(`src/ollama_cli/main.py`) for verification of the conversation-session
state machine, context loading and startup screen routing.

Conventions:
- Python dict messages `{"role": r, "content": c}` become the `Msg` structure.
- The Chat screen's mutable fields (`self.messages`, `self.file_context`,
  `input_widget.disabled`, the `#file_status` label text) become `ChatState`.
- The streaming network call is abstracted as a finite list of text delta
  chunks followed by a normal/failed termination (`StreamOutcome`), exactly
  the shape the handler consumes in its `async for` loop.
- Filesystem trees for `os.walk` become the inductive `FSNode`; a file whose
  text read fails (`IOError`/`UnicodeDecodeError`) carries `none`.
-/

namespace OllamaTui

/-- A single-quote character as a string; used by labels the source builds
with f-strings such as `f"file '{name}'"`. -/
def squote : String := String.singleton (Char.ofNat 39)

/-- A chat message, as the dict literals `{"role": ..., "content": ...}`
built in `ChatScreen.on_input_submitted` (main.py:188,190,203). -/
structure Msg where
  role : String
  content : String
deriving DecidableEq, Repr

/-- The mutable state of a `ChatScreen` instance relevant to the session:
`model_name`, `messages`, `file_context` (main.py:94-97), the input widget's
disabled flag (main.py:185,219) and the `#file_status` label text
(main.py:140,144,170,174,201). -/
structure ChatState where
  model_name : String
  messages : List Msg
  file_context : Option (String × String)
  input_disabled : Bool
  file_status : String
deriving DecidableEq, Repr

/-- `self.messages[-1]["content"] = c` (main.py:211,213,215): replace the
content of the last message, if any. -/
def setLast : List Msg → String → List Msg
  | [], _ => []
  | [m], c => [{ m with content := c }]
  | m :: m2 :: rest, c => m :: setLast (m2 :: rest) c

def setLastContent (s : ChatState) (c : String) : ChatState :=
  { s with messages := setLast s.messages c }

/-- The content of the last message in the history, if any. -/
def lastContent (s : ChatState) : Option String :=
  s.messages.getLast?.map Msg.content

/-- The streaming cursor glyph appended while a response is in flight
(main.py:211). -/
def cursorGlyph : String := " ▋"

/-- Concatenation of a list of delta chunks, `d1 ++ d2 ++ ... ++ dn`. -/
def concatAll : List String → String
  | [] => ""
  | d :: rest => d ++ concatAll rest

/-- Result of the synchronous part of a submission: the updated screen state
and, when a streaming request is launched, the outgoing `api_messages`. -/
structure SubmitResult where
  state : ChatState
  request : Option (List Msg)
deriving DecidableEq, Repr

/-- The synchronous prefix of `ChatScreen.on_input_submitted`
(main.py:176-203), i.e. everything that happens before the first delta can
arrive: the empty-submission early return; disabling the input; appending
the User message with the original text and the empty Assistant
placeholder; expanding the prompt from a pending `file_context` and
consuming it; and building `api_messages = self.messages[:-2] +
[{"role": "user", "content": prompt_for_model}]`. -/
def submitPhase (s : ChatState) (userText : String) : SubmitResult :=
  if userText = "" then ⟨s, none⟩
  else
    let msgs := s.messages ++ [⟨"user", userText⟩, ⟨"assistant", ""⟩]
    let prompt_for_model :=
      match s.file_context with
      | none => userText
      | some (context_name, file_content) =>
          "The user has provided context from " ++ context_name ++ ".\n" ++
            file_content ++ "\n\nBased on this, respond to: " ++ userText
    let s2 : ChatState :=
      match s.file_context with
      | none => { s with messages := msgs, input_disabled := true }
      | some _ =>
          { s with messages := msgs, input_disabled := true,
                   file_context := none, file_status := "" }
    let api_messages := msgs.dropLast.dropLast ++ [⟨"user", prompt_for_model⟩]
    ⟨s2, some api_messages⟩

/-- Delivery of an `Input.Submitted` event to the screen. While the handler
is streaming it holds `input_widget.disabled = True` (main.py:185), and a
disabled Input emits no Submitted events, so a submission attempted while
the flag is set reaches no handler: the state is untouched and no request
is launched. Otherwise the handler body `submitPhase` runs. -/
def submitEvent (s : ChatState) (userText : String) : SubmitResult :=
  if s.input_disabled then ⟨s, none⟩ else submitPhase s userText

/-- One iteration of the `async for part in ...` loop (main.py:208-212):
the pair carries the screen state and the `full_response` accumulator.
A falsy (empty) chunk is skipped; otherwise it is appended to
`full_response` and the placeholder's content becomes the accumulator
followed by the cursor glyph. -/
def applyDelta (p : ChatState × String) (chunk : String) : ChatState × String :=
  if chunk = "" then p
  else
    let full_response := p.2 ++ chunk
    (setLastContent p.1 (full_response ++ cursorGlyph), full_response)

/-- The whole delta loop over a finite chunk sequence, in arrival order. -/
def runDeltas (p : ChatState × String) (ds : List String) : ChatState × String :=
  ds.foldl applyDelta p

/-- How the stream terminates: normal completion, or a raised exception
with its rendered message `str(e)`. -/
inductive StreamOutcome where
  | success : StreamOutcome
  | failure : String → StreamOutcome
deriving DecidableEq, Repr

/-- The streaming tail of `on_input_submitted` (main.py:204-220): run the
delta loop from an empty `full_response`; on normal completion the
placeholder becomes exactly `full_response` (glyph removed, main.py:213);
on an exception the placeholder becomes `"An error occurred: " ++ e`
(main.py:215); the `finally` block re-enables the input (main.py:219). -/
def streamRun (s : ChatState) (ds : List String) (o : StreamOutcome) : ChatState :=
  let p := runDeltas (s, "") ds
  let s2 :=
    match o with
    | .success => setLastContent p.1 p.2
    | .failure e => setLastContent p.1 ("An error occurred: " ++ e)
  { s2 with input_disabled := false }

/-- A full submission turn: deliver the Submitted event; when a request is
launched, consume the stream to its outcome. -/
def submitAndStream (s : ChatState) (t : String) (ds : List String)
    (o : StreamOutcome) : ChatState :=
  match submitEvent s t with
  | ⟨s1, some _⟩ => streamRun s1 ds o
  | ⟨s1, none⟩ => s1

/-- `os.path.basename` for slash-separated paths: the part after the last
separator. -/
def basename (p : String) : String :=
  String.mk ((p.data.reverse.takeWhile (fun c => c ≠ '/')).reverse)

/-- Result of `open(path).read()` as text: the decoded content, or the
rendered message of the raised exception. -/
inductive ReadResult where
  | ok : String → ReadResult
  | ioError : String → ReadResult
deriving DecidableEq, Repr

/-- `ChatScreen.on_directory_tree_file_selected` (main.py:129-144): on a
successful read, install `(f"file '{basename}'", "--- FILE: {path} ---\n"
++ content)` as the pending context and show a status; on failure, only
the status label changes. -/
def onFileSelected (s : ChatState) (path : String) (r : ReadResult) : ChatState :=
  match r with
  | .ok file_content =>
      let prompt_content := "--- FILE: " ++ path ++ " ---\n" ++ file_content
      { s with
          file_context :=
            some ("file " ++ squote ++ basename path ++ squote, prompt_content),
          file_status := "Context: " ++ basename path }
  | .ioError e => { s with file_status := "Error: " ++ e }

/-- A filesystem subtree as `os.walk` sees it: a named file whose text read
yields `some content` (or `none` when `open`/decode raises
`IOError`/`UnicodeDecodeError`), or a named directory with children in
stable traversal order. -/
inductive FSNode where
  | file : String → Option String → FSNode
  | dir : String → List FSNode → FSNode

/-- `ignored_dirs = {".git", ".venv", "__pycache__"}` (main.py:152). -/
def ignoredDirs : List String := [".git", ".venv", "__pycache__"]

/-- `ignored_extensions = {".pyc", ".lock"}` (main.py:153). -/
def ignoredExtensions : List String := [".pyc", ".lock"]

/-- `os.path.splitext(name)[1]`: the extension starting at the last dot,
except that a name whose every character before that dot is a dot has no
extension (so ".pyc" as a whole filename has extension ""). -/
def splitextExt (name : String) : String :=
  let rcs := name.data.reverse
  let pre := rcs.takeWhile (fun c => c ≠ '.')
  match rcs.dropWhile (fun c => c ≠ '.') with
  | [] => ""
  | _ :: before =>
      if before.any (fun c => c ≠ '.') then String.mk ('.' :: pre.reverse) else ""

/-- `os.path.join(root, name)` for slash-separated paths. -/
def joinPath (root name : String) : String := root ++ "/" ++ name

/-- What one directory entry contributes to `(full_context, file_count)`
when its parent `root` is visited (main.py:158-168): subdirectories
contribute nothing at this point (the walk descends into them separately);
a file with an ignored extension is skipped; a file whose read fails is
skipped; any other file contributes its marker-prefixed content and a
count of one. -/
def fileContribution (root : String) : FSNode → String × Nat
  | .file name content =>
      if ignoredExtensions.contains (splitextExt name) then ("", 0)
      else
        match content with
        | some c => ("--- FILE: " ++ joinPath root name ++ " ---\n" ++ c ++ "\n\n", 1)
        | none => ("", 0)
  | .dir _ _ => ("", 0)

/-- Sequential accumulation of `(full_context, file_count)` pairs:
`full_context += ...` and `file_count += ...` (main.py:165-166). -/
def combineWalk (a b : String × Nat) : String × Nat := (a.1 ++ b.1, a.2 + b.2)

/-- The contribution of one visited directory's own files, in listing
order. -/
def walkFilesLevel (root : String) (cs : List FSNode) : String × Nat :=
  cs.foldl (fun acc c => combineWalk acc (fileContribution root c)) ("", 0)

/-- The contribution of the subdirectories of a visited directory:
`dirs[:] = [d for d in dirs if d not in ignored_dirs]` (main.py:157)
prunes ignored names so the walk never descends into them; each kept
subdirectory is visited top-down (its own files first, then its
subdirectories). -/
def walkSubdirs (root : String) : List FSNode → String × Nat
  | [] => ("", 0)
  | .file _ _ :: rest => walkSubdirs root rest
  | .dir name sub :: rest =>
      if ignoredDirs.contains name then walkSubdirs root rest
      else
        combineWalk
          (combineWalk (walkFilesLevel (joinPath root name) sub)
            (walkSubdirs (joinPath root name) sub))
          (walkSubdirs root rest)

/-- The whole `os.walk(dir_path)` accumulation (main.py:156-168). -/
def walkAll (root : String) (cs : List FSNode) : String × Nat :=
  combineWalk (walkFilesLevel root cs) (walkSubdirs root cs)

/-- The bundle and status built by
`ChatScreen.on_directory_tree_directory_selected` (main.py:169-170):
`((f"{count} files from '{basename}'", payload), f"Context: {count} files loaded")`. -/
def loadDirectory (dir_path : String) (cs : List FSNode) : (String × String) × String :=
  let r := walkAll dir_path cs
  ((toString r.2 ++ " files from " ++ squote ++ basename dir_path ++ squote, r.1),
    "Context: " ++ toString r.2 ++ " files loaded")

/-- `ChatScreen.on_directory_tree_directory_selected` (main.py:146-174)
applied to the screen state: install the directory bundle as the pending
context and update the status label. -/
def onDirectorySelected (s : ChatState) (dir_path : String) (cs : List FSNode) :
    ChatState :=
  let r := loadDirectory dir_path cs
  { s with file_context := some r.1, file_status := r.2 }

/-- One entry of the catalog response `client.list().get("models", [])`:
the `"model"` key may be absent (`model.get("model")`, main.py:277). -/
structure ModelEntry where
  name : Option String
deriving DecidableEq, Repr

/-- Outcome of the startup catalog query (main.py:273-284): a model list,
an `ollama.ResponseError`, or any other exception with its rendered
message. -/
inductive CatalogOutcome where
  | ok : List ModelEntry → CatalogOutcome
  | responseError : CatalogOutcome
  | otherError : String → CatalogOutcome

/-- The screen pushed by `OllamaCLI.on_mount`. -/
inductive AppScreen where
  | modelsScreen : AppScreen
  | chatScreen : String → AppScreen
  | errorScreen : String → AppScreen
deriving DecidableEq, Repr

/-- `OllamaCLI.on_mount` (main.py:271-284): exactly one model with a truthy
name routes straight to the Chat screen for it; exactly one model with a
missing or empty name, or any other count, routes to the Models screen;
`ollama.ResponseError` routes to the connection error screen; any other
exception routes to an error screen showing its message. -/
def onMountRoute (host : String) : CatalogOutcome → AppScreen
  | .ok [m] =>
      match m.name with
      | some n => if n = "" then .modelsScreen else .chatScreen n
      | none => .modelsScreen
  | .ok _ => .modelsScreen
  | .responseError => .errorScreen ("Could not connect to Ollama at " ++ host)
  | .otherError e => .errorScreen e

/-! ### Helper lemmas about the embedded operations -/

theorem setLast_ne_nil (m : Msg) (rest : List Msg) (c : String) :
    setLast (m :: rest) c ≠ [] := by
  cases rest <;> simp [setLast]

theorem setLast_setLast (ms : List Msg) (a b : String) :
    setLast (setLast ms a) b = setLast ms b := by
  induction ms with
  | nil => rfl
  | cons m rest ih =>
      cases rest with
      | nil => rfl
      | cons m2 rest2 =>
          rcases hms : setLast (m2 :: rest2) a with _ | ⟨m3, ms3⟩
          · exact absurd hms (setLast_ne_nil m2 rest2 a)
          · show setLast (m :: setLast (m2 :: rest2) a) b = m :: setLast (m2 :: rest2) b
            rw [hms]
            show m :: setLast (m3 :: ms3) b = m :: setLast (m2 :: rest2) b
            rw [← hms, ih]

theorem setLast_concat : ∀ (xs : List Msg) (m : Msg) (c : String),
    setLast (xs ++ [m]) c = xs ++ [{ m with content := c }]
  | [], _, _ => rfl
  | [_], _, _ => rfl
  | x :: y :: ys, m, c => by
      have ih := setLast_concat (y :: ys) m c
      show x :: setLast (y :: (ys ++ [m])) c = x :: (y :: (ys ++ [{ m with content := c }]))
      rw [show y :: (ys ++ [m]) = (y :: ys) ++ [m] from rfl, ih]
      rfl

theorem setLastContent_setLastContent (s : ChatState) (a b : String) :
    setLastContent (setLastContent s a) b = setLastContent s b := by
  simp [setLastContent, setLast_setLast]

theorem concatAll_cons (d : String) (ds : List String) :
    concatAll (d :: ds) = d ++ concatAll ds := rfl

theorem concatAll_all_empty : ∀ (ds : List String),
    ds.all (fun d => d == "") = true → concatAll ds = ""
  | [], _ => rfl
  | d :: rest, h => by
      simp only [List.all_cons, Bool.and_eq_true, beq_iff_eq] at h
      simp [concatAll, h.1, concatAll_all_empty rest h.2]

theorem concatAll_append : ∀ (xs ys : List String),
    concatAll (xs ++ ys) = concatAll xs ++ concatAll ys
  | [], ys => by simp [concatAll]
  | x :: xs, ys => by
      simp [concatAll, concatAll_append xs ys, String.append_assoc]

theorem concatAll_filter_ne_empty : ∀ (ds : List String),
    concatAll (ds.filter (fun d => !(d == ""))) = concatAll ds
  | [] => rfl
  | d :: rest => by
      by_cases h : d = ""
      · subst h
        simp [List.filter_cons, concatAll, concatAll_filter_ne_empty rest]
      · simp [List.filter_cons, h, concatAll, concatAll_filter_ne_empty rest]

theorem runDeltas_snd : ∀ (ds : List String) (s : ChatState) (acc : String),
    (runDeltas (s, acc) ds).2 = acc ++ concatAll ds
  | [], s, acc => by simp [runDeltas, concatAll]
  | d :: rest, s, acc => by
      by_cases h : d = ""
      · subst h
        show (runDeltas (applyDelta (s, acc) "") rest).2 = _
        simp [applyDelta, runDeltas_snd rest s acc, concatAll]
      · show (runDeltas (applyDelta (s, acc) d) rest).2 = _
        simp only [applyDelta, if_neg h]
        rw [runDeltas_snd rest _ (acc ++ d)]
        simp [concatAll, String.append_assoc]

theorem runDeltas_fst : ∀ (ds : List String) (s : ChatState) (acc : String),
    (runDeltas (s, acc) ds).1 =
      if ds.all (fun d => d == "") then s
      else setLastContent s (acc ++ concatAll ds ++ cursorGlyph)
  | [], s, acc => by simp [runDeltas]
  | d :: rest, s, acc => by
      by_cases h : d = ""
      · subst h
        show (runDeltas (applyDelta (s, acc) "") rest).1 = _
        have ha : applyDelta (s, acc) "" = (s, acc) := by simp [applyDelta]
        rw [ha, runDeltas_fst rest s acc]
        simp [concatAll]
      · show (runDeltas (applyDelta (s, acc) d) rest).1 = _
        simp only [applyDelta, if_neg h]
        rw [runDeltas_fst rest _ (acc ++ d)]
        by_cases hrest : rest.all (fun d => d == "") = true
        · rw [if_pos hrest]
          have hne : ¬((d :: rest).all (fun d => d == "") = true) := by
            simp [List.all_cons, h]
          rw [if_neg hne]
          simp [concatAll, concatAll_all_empty rest hrest, String.append_assoc]
        · rw [if_neg hrest]
          have hne : ¬((d :: rest).all (fun d => d == "") = true) := by
            simp [List.all_cons, h]
          rw [if_neg hne, setLastContent_setLastContent]
          simp [concatAll, String.append_assoc]

theorem streamRun_success (s : ChatState) (ds : List String) :
    streamRun s ds .success =
      { setLastContent s (concatAll ds) with input_disabled := false } := by
  simp only [streamRun, runDeltas_fst, runDeltas_snd, String.empty_append]
  by_cases h : ds.all (fun d => d == "") = true
  · rw [if_pos h, concatAll_all_empty ds h]
  · rw [if_neg h, setLastContent_setLastContent]

theorem streamRun_failure (s : ChatState) (ds : List String) (e : String) :
    streamRun s ds (.failure e) =
      { setLastContent s ("An error occurred: " ++ e) with input_disabled := false } := by
  simp only [streamRun, runDeltas_fst, runDeltas_snd]
  by_cases h : ds.all (fun d => d == "") = true
  · rw [if_pos h]
  · rw [if_neg h, setLastContent_setLastContent]

theorem dropLast_append_two (xs : List Msg) (u a : Msg) :
    (xs ++ [u, a]).dropLast.dropLast = xs := by
  have h : xs ++ [u, a] = (xs ++ [u]) ++ [a] := by simp
  rw [h, List.dropLast_concat, List.dropLast_concat]

theorem submitPhase_of_ne (s : ChatState) (t : String) (h : t ≠ "") :
    submitPhase s t =
      ⟨match s.file_context with
        | none =>
            { s with messages := s.messages ++ [⟨"user", t⟩, ⟨"assistant", ""⟩],
                     input_disabled := true }
        | some _ =>
            { s with messages := s.messages ++ [⟨"user", t⟩, ⟨"assistant", ""⟩],
                     input_disabled := true, file_context := none, file_status := "" },
       some (s.messages ++
         [⟨"user",
           match s.file_context with
           | none => t
           | some (context_name, file_content) =>
               "The user has provided context from " ++ context_name ++ ".\n" ++
                 file_content ++ "\n\nBased on this, respond to: " ++ t⟩])⟩ := by
  simp only [submitPhase, if_neg h, dropLast_append_two]

theorem getLast?_setLast_concat (xs : List Msg) (m : Msg) (c : String) :
    (setLast (xs ++ [m]) c).getLast? = some { m with content := c } := by
  rw [setLast_concat, List.getLast?_concat]

theorem submitEvent_not_disabled (s : ChatState) (t : String)
    (hidle : s.input_disabled = false) : submitEvent s t = submitPhase s t := by
  simp [submitEvent, hidle]

theorem submitEvent_messages (s : ChatState) (t : String)
    (hidle : s.input_disabled = false) (hne : t ≠ "") :
    (submitEvent s t).state.messages
      = s.messages ++ [⟨"user", t⟩, ⟨"assistant", ""⟩] := by
  rw [submitEvent_not_disabled s t hidle, submitPhase_of_ne s t hne]
  cases s.file_context <;> rfl

theorem submitEvent_disables_input (s : ChatState) (t : String)
    (hidle : s.input_disabled = false) (hne : t ≠ "") :
    (submitEvent s t).state.input_disabled = true := by
  rw [submitEvent_not_disabled s t hidle, submitPhase_of_ne s t hne]
  cases s.file_context <;> rfl

theorem lastContent_setLastContent_of_concat (s : ChatState) (xs : List Msg)
    (m : Msg) (c : String) (h : s.messages = xs ++ [m]) :
    lastContent (setLastContent s c) = some c := by
  simp [lastContent, setLastContent, h, setLast_concat, List.getLast?_concat]

theorem lastContent_set_input (s : ChatState) (b : Bool) :
    lastContent { s with input_disabled := b } = lastContent s := rfl

theorem submitEvent_messages_concat (s : ChatState) (t : String)
    (hidle : s.input_disabled = false) (hne : t ≠ "") :
    (submitEvent s t).state.messages
      = (s.messages ++ [⟨"user", t⟩]) ++ [⟨"assistant", ""⟩] := by
  rw [submitEvent_messages s t hidle hne]
  simp

/-! ### Claim theorems -/

/-- Claim C1: for every non-empty `userText` submitted while the session is
Idle (input enabled), the submission immediately — before any delta arrives —
extends the history by exactly two messages: a User message holding the
original `userText`, followed by an Assistant message holding the empty
string. -/
theorem c1_submit_appends_user_and_placeholder (s : ChatState) (t : String)
    (hidle : s.input_disabled = false) (hne : t ≠ "") :
    (submitEvent s t).state.messages
        = s.messages ++ [⟨"user", t⟩, ⟨"assistant", ""⟩] ∧
      (submitEvent s t).state.messages.length = s.messages.length + 2 := by
  have hmsg := submitEvent_messages s t hidle hne
  exact ⟨hmsg, by rw [hmsg]; simp⟩

/-- Witness for C1 at the fresh Chat screen and the input "hi". -/
theorem c1_submit_appends_user_and_placeholder_witness :
    (submitEvent ⟨"llama3", [], none, false, ""⟩ "hi").state.messages
        = ([] : List Msg) ++ [⟨"user", "hi"⟩, ⟨"assistant", ""⟩] ∧
      (submitEvent ⟨"llama3", [], none, false, ""⟩ "hi").state.messages.length
        = ([] : List Msg).length + 2 :=
  c1_submit_appends_user_and_placeholder ⟨"llama3", [], none, false, ""⟩ "hi" rfl
    (by decide)

/-- Claim C2: for an Idle→Streaming→Idle run with normal completion over
deltas `ds`, the placeholder's final content is `d1 ++ ... ++ dn`; any
re-chunking of the same total text yields the same final state
(chunking-invariance); and deltas are consumed strictly in arrival order —
after any prefix of `k` deltas the accumulator holds exactly the
concatenation of that prefix, with the remaining suffix extending it to the
total. -/
theorem c2_final_content_is_delta_concat (s : ChatState) (t : String)
    (ds : List String) (hidle : s.input_disabled = false) (hne : t ≠ "") :
    lastContent (streamRun (submitEvent s t).state ds .success)
        = some (concatAll ds) ∧
      (∀ ds2 : List String, concatAll ds2 = concatAll ds →
        streamRun (submitEvent s t).state ds2 .success
          = streamRun (submitEvent s t).state ds .success) ∧
      (∀ k : Nat,
        (runDeltas ((submitEvent s t).state, "") (ds.take k)).2
            ++ concatAll (ds.drop k) = concatAll ds) := by
  refine ⟨?_, ?_, ?_⟩
  · rw [streamRun_success]
    rw [lastContent_set_input]
    exact lastContent_setLastContent_of_concat _ _ _ _
      (submitEvent_messages_concat s t hidle hne)
  · intro ds2 h
    rw [streamRun_success, streamRun_success, h]
  · intro k
    rw [runDeltas_snd, String.empty_append, ← concatAll_append,
      List.take_append_drop]

/-- Witness for C2: the run over `["Hel", "lo"]`, the re-chunking
`["Hello"]`, and the split after the first delta. -/
theorem c2_final_content_is_delta_concat_witness :
    lastContent (streamRun (submitEvent ⟨"llama3", [], none, false, ""⟩ "hi").state
        ["Hel", "lo"] .success) = some (concatAll ["Hel", "lo"]) ∧
      streamRun (submitEvent ⟨"llama3", [], none, false, ""⟩ "hi").state
          ["Hello"] .success
        = streamRun (submitEvent ⟨"llama3", [], none, false, ""⟩ "hi").state
          ["Hel", "lo"] .success ∧
      (runDeltas ((submitEvent ⟨"llama3", [], none, false, ""⟩ "hi").state, "")
            (["Hel", "lo"].take 1)).2 ++ concatAll (["Hel", "lo"].drop 1)
        = concatAll ["Hel", "lo"] := by
  have h := c2_final_content_is_delta_concat ⟨"llama3", [], none, false, ""⟩ "hi"
    ["Hel", "lo"] rfl (by decide)
  exact ⟨h.1, h.2.1 ["Hello"] (by decide), h.2.2 1⟩

/-- Claim C4: submitting an empty `userText` while the session is Idle is a
no-op: the whole screen state (history, pending context bundle, flags) is
unchanged and no streaming request is launched. -/
theorem c4_empty_submission_noop (s : ChatState)
    (hidle : s.input_disabled = false) :
    submitEvent s "" = ⟨s, none⟩ := by
  rw [submitEvent_not_disabled s "" hidle]
  rfl

/-- Witness for C4 at a state with history and a pending bundle. -/
theorem c4_empty_submission_noop_witness :
    submitEvent ⟨"m", [⟨"user", "q"⟩, ⟨"assistant", "a"⟩],
        some ("lbl", "pay"), false, "st"⟩ ""
      = ⟨⟨"m", [⟨"user", "q"⟩, ⟨"assistant", "a"⟩],
        some ("lbl", "pay"), false, "st"⟩, none⟩ :=
  c4_empty_submission_noop
    ⟨"m", [⟨"user", "q"⟩, ⟨"assistant", "a"⟩], some ("lbl", "pay"), false, "st"⟩ rfl

/-- Claim C3 (counterexample): on the scenario the claim itself names —
deltas `["Hel", "lo, ", "world"]` followed by a failure — the final
Assistant message is exactly the rendered error notice; the partial text
`"Hello, world"` does not occur in it, so it is not concatenated into the
notice as the claim asserts. -/
theorem c3_partial_text_counterexample :
    lastContent (submitAndStream ⟨"llama3", [], none, false, ""⟩ "hi"
        ["Hel", "lo, ", "world"] (.failure "boom"))
      = some "An error occurred: boom" ∧
    ¬ ("Hello, world".data <:+: ("An error occurred: boom").data) :=
  ⟨by decide, by decide⟩

/-- Claim C3 (amended): when the stream fails mid-way, the placeholder
Assistant message's content is replaced — not appended to — with the
rendered error notice `"An error occurred: <cause>"`; the partial text
received so far is discarded rather than concatenated into the notice; and
the session returns to Idle (input re-enabled), so further non-empty
submissions launch a new request. -/
theorem c3_failure_replaces_with_notice (s : ChatState) (t : String)
    (ds : List String) (e : String)
    (hidle : s.input_disabled = false) (hne : t ≠ "") :
    lastContent (streamRun (submitEvent s t).state ds (.failure e))
        = some ("An error occurred: " ++ e) ∧
      (streamRun (submitEvent s t).state ds (.failure e)).input_disabled = false ∧
      (∀ t2 : String, t2 ≠ "" →
        (submitEvent (streamRun (submitEvent s t).state ds (.failure e)) t2).request
          ≠ none) := by
  refine ⟨?_, ?_, ?_⟩
  · rw [streamRun_failure, lastContent_set_input]
    exact lastContent_setLastContent_of_concat _ _ _ _
      (submitEvent_messages_concat s t hidle hne)
  · rw [streamRun_failure]
  · intro t2 ht2
    have hd : (streamRun (submitEvent s t).state ds (.failure e)).input_disabled
        = false := by rw [streamRun_failure]
    rw [submitEvent_not_disabled _ t2 hd, submitPhase_of_ne _ t2 ht2]
    simp

/-- Witness for the amended C3 on the claim's own scenario. -/
theorem c3_failure_replaces_with_notice_witness :
    lastContent (streamRun (submitEvent ⟨"llama3", [], none, false, ""⟩ "hi").state
        ["Hel", "lo, ", "world"] (.failure "boom"))
        = some ("An error occurred: " ++ "boom") ∧
      (streamRun (submitEvent ⟨"llama3", [], none, false, ""⟩ "hi").state
        ["Hel", "lo, ", "world"] (.failure "boom")).input_disabled = false ∧
      (∀ t2 : String, t2 ≠ "" →
        (submitEvent (streamRun (submitEvent ⟨"llama3", [], none, false, ""⟩ "hi").state
            ["Hel", "lo, ", "world"] (.failure "boom")) t2).request ≠ none) :=
  c3_failure_replaces_with_notice ⟨"llama3", [], none, false, ""⟩ "hi"
    ["Hel", "lo, ", "world"] "boom" rfl (by decide)

/-- Claim C5: with a bundle `(label, payload)` pending at submission time,
the outgoing request is the prior history followed by one user message whose
content is the expanded prompt
`"The user has provided context from <label>.\n<payload>\n\nBased on this,
respond to: <userText>"` (so the expanded text is the request's last user
message), while the history records only the original `userText`; the
pending bundle is consumed by the submission; and selecting a context always
replaces whatever bundle was pending, so at most one is pending at a time. -/
theorem c5_context_merge (s : ChatState) (t lbl payload : String)
    (hidle : s.input_disabled = false) (hne : t ≠ "")
    (hctx : s.file_context = some (lbl, payload)) :
    (submitEvent s t).request
        = some (s.messages ++ [⟨"user",
            "The user has provided context from " ++ lbl ++ ".\n" ++ payload ++
              "\n\nBased on this, respond to: " ++ t⟩]) ∧
      (∀ api : List Msg, (submitEvent s t).request = some api →
        api.getLast? = some ⟨"user",
          "The user has provided context from " ++ lbl ++ ".\n" ++ payload ++
            "\n\nBased on this, respond to: " ++ t⟩) ∧
      (submitEvent s t).state.messages
        = s.messages ++ [⟨"user", t⟩, ⟨"assistant", ""⟩] ∧
      (submitEvent s t).state.file_context = none ∧
      (∀ (s2 : ChatState) (path c : String),
        (onFileSelected s2 path (.ok c)).file_context
          = some ("file " ++ squote ++ basename path ++ squote,
              "--- FILE: " ++ path ++ " ---\n" ++ c)) := by
  have hreq : (submitEvent s t).request
      = some (s.messages ++ [⟨"user",
          "The user has provided context from " ++ lbl ++ ".\n" ++ payload ++
            "\n\nBased on this, respond to: " ++ t⟩]) := by
    rw [submitEvent_not_disabled s t hidle, submitPhase_of_ne s t hne, hctx]
  refine ⟨hreq, ?_, ?_, ?_, ?_⟩
  · intro api happ
    rw [hreq] at happ
    cases happ
    exact List.getLast?_concat _
  · exact submitEvent_messages s t hidle hne
  · rw [submitEvent_not_disabled s t hidle, submitPhase_of_ne s t hne, hctx]
  · intro s2 path c
    rfl

/-- Witness for C5: a pending bundle over a one-turn history, and a
replacement file selection on a state that already holds a bundle. -/
theorem c5_context_merge_witness :
    (submitEvent ⟨"m", [⟨"user", "q"⟩], some ("lbl", "pay"), false, "st"⟩ "ask").request
        = some ([⟨"user", "q"⟩] ++ [⟨"user",
            "The user has provided context from " ++ "lbl" ++ ".\n" ++ "pay" ++
              "\n\nBased on this, respond to: " ++ "ask"⟩]) ∧
      (∀ api : List Msg,
        (submitEvent ⟨"m", [⟨"user", "q"⟩], some ("lbl", "pay"), false, "st"⟩
            "ask").request = some api →
        api.getLast? = some ⟨"user",
          "The user has provided context from " ++ "lbl" ++ ".\n" ++ "pay" ++
            "\n\nBased on this, respond to: " ++ "ask"⟩) ∧
      (submitEvent ⟨"m", [⟨"user", "q"⟩], some ("lbl", "pay"), false, "st"⟩
          "ask").state.messages
        = [⟨"user", "q"⟩] ++ [⟨"user", "ask"⟩, ⟨"assistant", ""⟩] ∧
      (submitEvent ⟨"m", [⟨"user", "q"⟩], some ("lbl", "pay"), false, "st"⟩
          "ask").state.file_context = none ∧
      (∀ (s2 : ChatState) (path c : String),
        (onFileSelected s2 path (.ok c)).file_context
          = some ("file " ++ squote ++ basename path ++ squote,
              "--- FILE: " ++ path ++ " ---\n" ++ c)) :=
  c5_context_merge ⟨"m", [⟨"user", "q"⟩], some ("lbl", "pay"), false, "st"⟩
    "ask" "lbl" "pay" rfl (by decide) rfl

/-- Claim C8: while a stream is in flight the input surface is disabled, and
a submission delivered in that condition alters nothing — the history is
untouched and no second request is launched; conversely a successful
non-empty submission from Idle sets the disabled flag, so at most one
request is ever outstanding. -/
theorem c8_streaming_rejects_submission (s : ChatState) (t : String) :
    (s.input_disabled = true → submitEvent s t = ⟨s, none⟩) ∧
      (s.input_disabled = false → t ≠ "" →
        (submitEvent s t).state.input_disabled = true) := by
  constructor
  · intro h
    simp [submitEvent, h]
  · intro h hne
    exact submitEvent_disables_input s t h hne

/-- Witness for C8: a submission against a streaming (disabled) screen is
dropped whole; a fresh submission disables the input. -/
theorem c8_streaming_rejects_submission_witness :
    submitEvent ⟨"m", [⟨"user", "q"⟩, ⟨"assistant", "par"⟩], none, true, ""⟩ "again"
        = ⟨⟨"m", [⟨"user", "q"⟩, ⟨"assistant", "par"⟩], none, true, ""⟩, none⟩ ∧
      (submitEvent ⟨"m", [], none, false, ""⟩ "hi").state.input_disabled = true :=
  ⟨(c8_streaming_rejects_submission
      ⟨"m", [⟨"user", "q"⟩, ⟨"assistant", "par"⟩], none, true, ""⟩ "again").1 rfl,
    (c8_streaming_rejects_submission ⟨"m", [], none, false, ""⟩ "hi").2 rfl
      (by decide)⟩

/-- Claim C6: directory context loading never descends into a directory
whose name is in the ignore-set; skips every file whose extension is in the
ignore-set; skips a file whose text read fails, without aborting the walk;
contributes, for each included file, its content prefixed by the
`--- FILE: <path> ---` marker; reports the included-file count in the
bundle label; and on a fixture tree holding an ignored subdirectory and an
unreadable file the count excludes both. -/
theorem c6_directory_context_loading :
    (∀ (root name : String) (sub rest : List FSNode),
        ignoredDirs.contains name = true →
        walkSubdirs root (.dir name sub :: rest) = walkSubdirs root rest) ∧
      (∀ (root name : String) (content : Option String),
        ignoredExtensions.contains (splitextExt name) = true →
        fileContribution root (.file name content) = ("", 0)) ∧
      (∀ (root name : String) (cs : List FSNode),
        walkFilesLevel root (.file name none :: cs) = walkFilesLevel root cs) ∧
      (∀ (root name c : String),
        ignoredExtensions.contains (splitextExt name) = false →
        fileContribution root (.file name (some c))
          = ("--- FILE: " ++ joinPath root name ++ " ---\n" ++ c ++ "\n\n", 1)) ∧
      (∀ (dir_path : String) (cs : List FSNode),
        (loadDirectory dir_path cs).1.1
            = toString (walkAll dir_path cs).2 ++ " files from " ++ squote ++
                basename dir_path ++ squote ∧
          (loadDirectory dir_path cs).1.2 = (walkAll dir_path cs).1) ∧
      (loadDirectory "fixture"
          [.file "a.txt" (some "A"), .dir ".git" [.file "g.txt" (some "G")],
            .file "img.png" none, .file "b.md" (some "B")]).1.1
        = "2 files from " ++ squote ++ "fixture" ++ squote ∧
      (loadDirectory "fixture"
          [.file "a.txt" (some "A"), .dir ".git" [.file "g.txt" (some "G")],
            .file "img.png" none, .file "b.md" (some "B")]).1.2
        = "--- FILE: fixture/a.txt ---\nA\n\n--- FILE: fixture/b.md ---\nB\n\n" := by
  have hall : walkAll "fixture"
      [.file "a.txt" (some "A"), .dir ".git" [.file "g.txt" (some "G")],
        .file "img.png" none, .file "b.md" (some "B")]
      = ("--- FILE: fixture/a.txt ---\nA\n\n--- FILE: fixture/b.md ---\nB\n\n", 2) := by
    simp only [walkAll, walkSubdirs]
    decide
  refine ⟨?_, ?_, ?_, ?_, ?_, ?_, ?_⟩
  · intro root name sub rest h
    have hmem : name ∈ ignoredDirs := by simpa using h
    simp [walkSubdirs, hmem]
  · intro root name content h
    have hmem : splitextExt name ∈ ignoredExtensions := by simpa using h
    simp [fileContribution, hmem]
  · intro root name cs
    unfold walkFilesLevel
    rw [List.foldl_cons]
    congr 1
    simp [fileContribution, combineWalk]
  · intro root name c h
    have hmem : splitextExt name ∉ ignoredExtensions := by simpa using h
    simp [fileContribution, hmem]
  · intro dir_path cs
    exact ⟨rfl, rfl⟩
  · simp only [loadDirectory, hall]
    decide
  · simp only [loadDirectory, hall]

/-- Witness for C6: the ignored `.git` subtree, the ignored `.lock` and
readable `.md` extensions, the unreadable-file skip, and the label formula,
each at a concrete instance. -/
theorem c6_directory_context_loading_witness :
    walkSubdirs "r" [.dir ".git" [.file "g.txt" (some "G")]] = walkSubdirs "r" [] ∧
      fileContribution "r" (.file "dep.lock" (some "L")) = ("", 0) ∧
      walkFilesLevel "r" [.file "img.png" none] = walkFilesLevel "r" [] ∧
      fileContribution "r" (.file "b.md" (some "B"))
        = ("--- FILE: " ++ joinPath "r" "b.md" ++ " ---\n" ++ "B" ++ "\n\n", 1) ∧
      (loadDirectory "d" [.file "a.txt" (some "A")]).1.1
        = toString (walkAll "d" [.file "a.txt" (some "A")]).2 ++ " files from " ++
            squote ++ basename "d" ++ squote := by
  have h := c6_directory_context_loading
  exact ⟨h.1 "r" ".git" [.file "g.txt" (some "G")] [] (by decide),
    h.2.1 "r" "dep.lock" (some "L") (by decide),
    h.2.2.1 "r" "img.png" [],
    h.2.2.2.1 "r" "b.md" "B" (by decide),
    (h.2.2.2.2.1 "d" [.file "a.txt" (some "A")]).1⟩

/-- Claim C7: the startup routing of `OllamaCLI.on_mount` over the single
catalog query: an unreachable or failing server routes to the Error screen;
a reachable server reporting exactly one (named, non-empty-named) model
routes directly to the Chat screen for that model and not to the Models
screen; a reachable server reporting zero or multiple models routes to the
Models screen. -/
theorem c7_startup_routing (host : String) :
    onMountRoute host .responseError
        = .errorScreen ("Could not connect to Ollama at " ++ host) ∧
      (∀ e : String, onMountRoute host (.otherError e) = .errorScreen e) ∧
      (∀ (m : ModelEntry) (n : String), m.name = some n → n ≠ "" →
        onMountRoute host (.ok [m]) = .chatScreen n ∧
          onMountRoute host (.ok [m]) ≠ .modelsScreen) ∧
      (∀ models : List ModelEntry, models.length ≠ 1 →
        onMountRoute host (.ok models) = .modelsScreen) := by
  refine ⟨rfl, fun _ => rfl, ?_, ?_⟩
  · intro m n hname hne
    obtain ⟨mn⟩ := m
    cases hname
    have h1 : onMountRoute host (.ok [⟨some n⟩]) = .chatScreen n := by
      simp [onMountRoute, hne]
    refine ⟨h1, ?_⟩
    rw [h1]
    simp
  · intro models hlen
    cases models with
    | nil => rfl
    | cons m1 tl =>
        cases tl with
        | nil => exact absurd rfl hlen
        | cons m2 rest => rfl

/-- Witness for C7: the default endpoint, the catalog `["llama3"]`, the
empty catalog and a two-model catalog. -/
theorem c7_startup_routing_witness :
    onMountRoute "http://localhost:11434" .responseError
        = .errorScreen ("Could not connect to Ollama at " ++ "http://localhost:11434") ∧
      onMountRoute "http://localhost:11434" (.ok [⟨some "llama3"⟩])
        = .chatScreen "llama3" ∧
      onMountRoute "http://localhost:11434" (.ok [⟨some "llama3"⟩])
        ≠ .modelsScreen ∧
      onMountRoute "http://localhost:11434" (.ok []) = .modelsScreen ∧
      onMountRoute "http://localhost:11434" (.ok [⟨some "a"⟩, ⟨some "b"⟩])
        = .modelsScreen := by
  have h := c7_startup_routing "http://localhost:11434"
  have h3 := h.2.2.1 ⟨some "llama3"⟩ "llama3" rfl (by decide)
  exact ⟨h.1, h3.1, h3.2, h.2.2.2 [] (by decide),
    h.2.2.2 [⟨some "a"⟩, ⟨some "b"⟩] (by decide)⟩

/-- Claim C9: a failure while loading single-file context only changes the
inline status label: the resulting state is the old state with
`file_status = "Error: <e>"`, so the message history and the previously
pending context bundle are untouched and no partial content is installed. -/
theorem c9_file_load_failure_inline_only (s : ChatState) (path e : String) :
    onFileSelected s path (.ioError e) = { s with file_status := "Error: " ++ e } ∧
      (onFileSelected s path (.ioError e)).messages = s.messages ∧
      (onFileSelected s path (.ioError e)).file_context = s.file_context :=
  ⟨rfl, rfl, rfl⟩

/-- Claim C10: during a stream, after any prefix of the delta sequence the
accumulator equals the concatenation of the non-empty chunks seen so far;
if every chunk so far was empty the screen state is entirely unchanged
(empty chunks are skipped), otherwise the placeholder's content is the
accumulated text followed by the cursor glyph; and normal completion leaves
exactly the accumulated text, glyph removed. -/
theorem c10_streaming_cursor_glyph (s : ChatState) (t : String)
    (ds : List String) (hidle : s.input_disabled = false) (hne : t ≠ "") :
    (∀ k : Nat,
      (runDeltas ((submitEvent s t).state, "") (ds.take k)).2
          = concatAll ((ds.take k).filter (fun d => !(d == ""))) ∧
        (if (ds.take k).all (fun d => d == "") = true
          then (runDeltas ((submitEvent s t).state, "") (ds.take k)).1
              = (submitEvent s t).state
          else lastContent (runDeltas ((submitEvent s t).state, "") (ds.take k)).1
              = some (concatAll (ds.take k) ++ cursorGlyph))) ∧
      lastContent (streamRun (submitEvent s t).state ds .success)
        = some (concatAll ds) := by
  refine ⟨?_, ?_⟩
  · intro k
    constructor
    · rw [runDeltas_snd, String.empty_append, concatAll_filter_ne_empty]
    · by_cases h : (ds.take k).all (fun d => d == "") = true
      · rw [if_pos h, runDeltas_fst, if_pos h]
      · rw [if_neg h, runDeltas_fst, if_neg h, String.empty_append]
        exact lastContent_setLastContent_of_concat _ _ _ _
          (submitEvent_messages_concat s t hidle hne)
  · rw [streamRun_success, lastContent_set_input]
    exact lastContent_setLastContent_of_concat _ _ _ _
      (submitEvent_messages_concat s t hidle hne)

/-- Witness for C10 over `["Hel", "", "lo"]`, split after the first two
chunks (one of them empty). -/
theorem c10_streaming_cursor_glyph_witness :
    ((runDeltas ((submitEvent ⟨"llama3", [], none, false, ""⟩ "hi").state, "")
          (["Hel", "", "lo"].take 2)).2
        = concatAll ((["Hel", "", "lo"].take 2).filter (fun d => !(d == ""))) ∧
      (if (["Hel", "", "lo"].take 2).all (fun d => d == "") = true
        then (runDeltas ((submitEvent ⟨"llama3", [], none, false, ""⟩ "hi").state, "")
              (["Hel", "", "lo"].take 2)).1
            = (submitEvent ⟨"llama3", [], none, false, ""⟩ "hi").state
        else lastContent (runDeltas
              ((submitEvent ⟨"llama3", [], none, false, ""⟩ "hi").state, "")
              (["Hel", "", "lo"].take 2)).1
            = some (concatAll (["Hel", "", "lo"].take 2) ++ cursorGlyph))) ∧
      lastContent (streamRun (submitEvent ⟨"llama3", [], none, false, ""⟩ "hi").state
          ["Hel", "", "lo"] .success)
        = some (concatAll ["Hel", "", "lo"]) :=
  ⟨(c10_streaming_cursor_glyph ⟨"llama3", [], none, false, ""⟩ "hi"
      ["Hel", "", "lo"] rfl (by decide)).1 2,
    (c10_streaming_cursor_glyph ⟨"llama3", [], none, false, ""⟩ "hi"
      ["Hel", "", "lo"] rfl (by decide)).2⟩

end OllamaTui
